import Mathlib

/-!
Verification of the playback orchestrator of the cladeai music-discovery app.

The model is a shallow embedding of:
* the `PlayerProvider` context (`PlayerContext.tsx`): the `PlayerState`
  record, the `useState` reducers backing every orchestrator operation
  (`play`, `openPlayer`, `switchProvider`, `pause`, `stop`, `closeSpotify`,
  `closeYoutube`, `seekTo`, `clearSeek`, `setCurrentSection`, `setIsPlaying`,
  `addToQueue`, `playFromQueue`, `removeFromQueue`, `reorderQueue`,
  `clearQueue`, `shuffleQueue`, `nextTrack`, `previousTrack`), the
  `stopProvider` helper and the invariant-checking `useEffect`;
* `resolveDefaultProvider` from the same file;
* the `YouTubePlayer` adapter with the pending-seek buffer
  (`readyRef`/`pendingSeekRef`, `attemptSeek`, the registered `seekTo`
  control with its one-shot 200 ms retry, and `onPlayerReady`).

Conventions: JS `string | null`/optional values become `Option`; JS numbers
used as seconds or indices become `Int`/`Nat` (no fractional or floating
behaviour is relevant to any property proved here); the `getPreferredProvider()`
read of persisted storage becomes an explicit `pref` argument on the
operations that call it; the `Math.random()`-based sort comparator becomes an
arbitrary boolean comparator argument.
-/

namespace Clade

/-- The `MusicProvider` union type (`@/types`); members as enumerated by
`preferences.ts` (`priority` list) and `ConnectedProviders`. -/
inductive MusicProvider where
  | spotify
  | youtube
  | apple_music
  | deezer
  | soundcloud
  | amazon_music
  deriving DecidableEq, Repr

/-- The slice of a `Track` record the orchestrator reads: `track.id`,
`track.spotify_id`, `track.youtube_id`.  The provider-specific ids are
optional (tracks ingested from one provider lack the other id). -/
structure Track where
  id : String
  spotify_id : Option String
  youtube_id : Option String
  deriving DecidableEq, Repr

/-- `PlayerState` of `PlayerContext.tsx`. -/
structure PlayerState where
  provider : Option MusicProvider
  trackId : Option String
  spotifyOpen : Bool
  youtubeOpen : Bool
  canonicalTrackId : Option String
  spotifyTrackId : Option String
  youtubeTrackId : Option String
  autoplaySpotify : Bool
  autoplayYoutube : Bool
  seekToSec : Option Int
  currentSectionId : Option String
  isPlaying : Bool
  queue : List Track
  queueIndex : Int
  deriving DecidableEq, Repr

/-- The initial state passed to `useState` in `PlayerProvider`. -/
def initialState : PlayerState :=
  { provider := none
    trackId := none
    spotifyOpen := false
    youtubeOpen := false
    canonicalTrackId := none
    spotifyTrackId := none
    youtubeTrackId := none
    autoplaySpotify := false
    autoplayYoutube := false
    seekToSec := none
    currentSectionId := none
    isPlaying := false
    queue := []
    queueIndex := -1 }

/-- JS `a ?? b` on nullable values. -/
def nullish (a b : Option α) : Option α :=
  match a with
  | some x => some x
  | none => b

/-- JS array indexing `l[i]` with a possibly negative index: negative
indices read `undefined`. -/
def listGetInt (l : List α) (i : Int) : Option α :=
  if i < 0 then none else l.get? i.toNat

/-- Index normalisation of JS `Array.prototype.slice`: a negative bound
counts from the end (clamped at 0). -/
def jsIdx (len : Nat) (i : Int) : Nat :=
  if i < 0 then ((len : Int) + i).toNat else i.toNat

/-- JS `l.slice(start)`. -/
def jsSliceFrom (l : List α) (start : Int) : List α :=
  l.drop (jsIdx l.length start)

/-- JS `l.slice(0, e)`. -/
def jsSliceUpTo (l : List α) (e : Int) : List α :=
  l.take (jsIdx l.length e)

/-- Insertion step of the model of `Array.prototype.sort` with an arbitrary
comparator. -/
def insertCmp (cmp : Track → Track → Bool) (a : Track) : List Track → List Track
  | [] => [a]
  | b :: l => if cmp a b then a :: b :: l else b :: insertCmp cmp a l

/-- Model of `[...remainingTracks].sort(() => Math.random() - 0.5)`: a sort
under an arbitrary comparator.  With an inconsistent (random) comparator JS
`sort` produces an implementation-defined order, but always a permutation of
its input; the comparator is therefore left abstract and only the
permutation property is used. -/
def sortCmp (cmp : Track → Track → Bool) : List Track → List Track
  | [] => []
  | a :: l => insertCmp cmp a (sortCmp cmp l)

namespace Player

/-- The `setState` reducer of `seekTo` (context-level seek request). -/
def seekTo (sec : Int) (s : PlayerState) : PlayerState :=
  { s with seekToSec := some sec }

/-- The `setState` reducer of `clearSeek`. -/
def clearSeek (s : PlayerState) : PlayerState :=
  { s with seekToSec := none }

/-- The `setState` reducer of `setCurrentSection`. -/
def setCurrentSection (sectionId : Option String) (s : PlayerState) : PlayerState :=
  { s with currentSectionId := sectionId }

/-- The `setState` reducer of `setIsPlaying`. -/
def setIsPlaying (playing : Bool) (s : PlayerState) : PlayerState :=
  { s with isPlaying := playing }

/-- The `setState` reducer of `addToQueue`. -/
def addToQueue (track : Track) (s : PlayerState) : PlayerState :=
  { s with queue := s.queue ++ [track] }

/-- The `setState` reducer of `playFromQueue(index)`.  `pref` is the value
read by `getPreferredProvider()` (persisted preference, possibly null). -/
def playFromQueue (pref : Option MusicProvider) (index : Nat) (s : PlayerState) : PlayerState :=
  match s.queue.get? index with
  | none => s
  | some track =>
    let provider := pref
    let providerTrackId :=
      if provider = some MusicProvider.spotify then track.spotify_id else track.youtube_id
    { s with
      queueIndex := (index : Int)
      canonicalTrackId := some track.id
      provider := provider
      trackId := providerTrackId
      spotifyOpen := decide (provider = some MusicProvider.spotify)
      youtubeOpen := decide (provider = some MusicProvider.youtube)
      spotifyTrackId := if provider = some MusicProvider.spotify then providerTrackId else none
      youtubeTrackId := if provider = some MusicProvider.youtube then providerTrackId else none
      autoplaySpotify := decide (provider = some MusicProvider.spotify)
      autoplayYoutube := decide (provider = some MusicProvider.youtube) }

/-- The `setState` reducer of `removeFromQueue(index)`.  The array index is a
natural number; `prev.queue.filter((_, i) => i !== index)` is exactly
`List.eraseIdx` (the identity when `index` is out of range). -/
def removeFromQueue (index : Nat) (s : PlayerState) : PlayerState :=
  let newQueue := s.queue.eraseIdx index
  let newIndex := if (index : Int) < s.queueIndex then s.queueIndex - 1 else s.queueIndex
  { s with queue := newQueue, queueIndex := newIndex }

/-- The `setState` reducer of `reorderQueue(newQueue)`. -/
def reorderQueue (newQueue : List Track) (s : PlayerState) : PlayerState :=
  { s with queue := newQueue }

/-- The `setState` reducer of `clearQueue`. -/
def clearQueue (s : PlayerState) : PlayerState :=
  { s with queue := [], queueIndex := -1 }

/-- The `setState` reducer of `shuffleQueue`: keeps
`queue.slice(0, queueIndex + 1)`, sorts `queue.slice(queueIndex + 1)` under
the random comparator, concatenates.  (The `currentTrack` local of the
source is unused there and omitted.) -/
def shuffleQueue (cmp : Track → Track → Bool) (s : PlayerState) : PlayerState :=
  let remainingTracks := jsSliceFrom s.queue (s.queueIndex + 1)
  let shuffled := sortCmp cmp remainingTracks
  let newQueue := jsSliceUpTo s.queue (s.queueIndex + 1) ++ shuffled
  { s with queue := newQueue }

/-- The `setState` reducer of `nextTrack`.  Note that it updates `provider`,
`trackId`, the provider track ids and the autoplay flags but not
`spotifyOpen`/`youtubeOpen` and not `isPlaying`. -/
def nextTrack (pref : Option MusicProvider) (s : PlayerState) : PlayerState :=
  if s.queue.length = 0 then s
  else
    let nextIndex : Int :=
      if s.queueIndex ≥ (s.queue.length : Int) - 1 then 0 else s.queueIndex + 1
    match listGetInt s.queue nextIndex with
    | none => s
    | some track =>
      let provider := pref
      let providerTrackId :=
        if provider = some MusicProvider.spotify then track.spotify_id else track.youtube_id
      { s with
        queueIndex := nextIndex
        canonicalTrackId := some track.id
        provider := provider
        trackId := providerTrackId
        spotifyTrackId := if provider = some MusicProvider.spotify then providerTrackId else none
        youtubeTrackId := if provider = some MusicProvider.youtube then providerTrackId else none
        autoplaySpotify := decide (provider = some MusicProvider.spotify)
        autoplayYoutube := decide (provider = some MusicProvider.youtube) }

/-- The `setState` reducer of `previousTrack`; same field footprint as
`nextTrack`. -/
def previousTrack (pref : Option MusicProvider) (s : PlayerState) : PlayerState :=
  if s.queue.length = 0 then s
  else
    let prevIndex : Int :=
      if s.queueIndex ≤ 0 then (s.queue.length : Int) - 1 else s.queueIndex - 1
    match listGetInt s.queue prevIndex with
    | none => s
    | some track =>
      let provider := pref
      let providerTrackId :=
        if provider = some MusicProvider.spotify then track.spotify_id else track.youtube_id
      { s with
        queueIndex := prevIndex
        canonicalTrackId := some track.id
        provider := provider
        trackId := providerTrackId
        spotifyTrackId := if provider = some MusicProvider.spotify then providerTrackId else none
        youtubeTrackId := if provider = some MusicProvider.youtube then providerTrackId else none
        autoplaySpotify := decide (provider = some MusicProvider.spotify)
        autoplayYoutube := decide (provider = some MusicProvider.youtube) }

/-- The `setState` reducer of the high-level `play(canonicalTrackId,
provider, providerTrackId, startSec)`.  (The preceding `stopProvider` call is
modelled separately by `playCalls`.) -/
def play (canonicalTrackId : Option String) (provider : MusicProvider)
    (providerTrackId : Option String) (startSec : Option Int) (s : PlayerState) : PlayerState :=
  let base :=
    { s with
      canonicalTrackId := nullish canonicalTrackId s.canonicalTrackId
      seekToSec := startSec
      provider := some provider
      trackId := nullish providerTrackId s.trackId
      isPlaying := true }
  if provider = MusicProvider.spotify then
    { base with
      spotifyOpen := true
      spotifyTrackId := nullish providerTrackId s.spotifyTrackId
      autoplaySpotify := true
      youtubeOpen := false
      autoplayYoutube := false }
  else
    { base with
      youtubeOpen := true
      youtubeTrackId := nullish providerTrackId s.youtubeTrackId
      autoplayYoutube := true
      spotifyOpen := false
      autoplaySpotify := false }

/-- The `setState` reducer of `openPlayer(payload)`.  Unlike `play`, the
provider track id is written directly (no `??` fallback) and the autoplay
flag honours `payload.autoplay ?? true`. -/
def openPlayer (canonicalTrackId : Option String) (provider : MusicProvider)
    (providerTrackId : Option String) (autoplay : Option Bool) (startSec : Option Int)
    (s : PlayerState) : PlayerState :=
  let base :=
    { s with
      canonicalTrackId := nullish canonicalTrackId s.canonicalTrackId
      seekToSec := startSec
      provider := some provider
      trackId := providerTrackId
      isPlaying := true }
  if provider = MusicProvider.spotify then
    { base with
      spotifyOpen := true
      spotifyTrackId := providerTrackId
      autoplaySpotify := autoplay.getD true
      youtubeOpen := false
      autoplayYoutube := false }
  else
    { base with
      youtubeOpen := true
      youtubeTrackId := providerTrackId
      autoplayYoutube := autoplay.getD true
      spotifyOpen := false
      autoplaySpotify := false }

/-- The `setState` reducer of `switchProvider(provider, providerTrackId,
canonicalTrackId)`: clears `seekToSec`, forces autoplay for the target
provider, and does not touch `isPlaying`. -/
def switchProvider (provider : MusicProvider) (providerTrackId : Option String)
    (canonicalTrackId : Option String) (s : PlayerState) : PlayerState :=
  let base :=
    { s with
      canonicalTrackId := nullish canonicalTrackId s.canonicalTrackId
      seekToSec := none
      provider := some provider
      trackId := providerTrackId }
  if provider = MusicProvider.spotify then
    { base with
      spotifyOpen := true
      spotifyTrackId := providerTrackId
      autoplaySpotify := true
      youtubeOpen := false
      autoplayYoutube := false }
  else
    { base with
      youtubeOpen := true
      youtubeTrackId := providerTrackId
      autoplayYoutube := true
      spotifyOpen := false
      autoplaySpotify := false }

/-- The `setState` reducer of `pause` (the adapter `pause()` call it issues
is modelled by the trace functions). -/
def pause (s : PlayerState) : PlayerState :=
  { s with isPlaying := false, autoplaySpotify := false, autoplayYoutube := false }

/-- The `setState` reducer of `stop` (the `stopProvider` call it issues is
modelled by the trace functions).  Note `queue`/`queueIndex` are untouched. -/
def stop (s : PlayerState) : PlayerState :=
  { s with
    isPlaying := false
    provider := none
    trackId := none
    spotifyOpen := false
    youtubeOpen := false
    spotifyTrackId := none
    youtubeTrackId := none
    canonicalTrackId := none
    autoplaySpotify := false
    autoplayYoutube := false
    seekToSec := none }

/-- The `setState` reducer of `closeSpotify`. -/
def closeSpotify (s : PlayerState) : PlayerState :=
  { s with spotifyOpen := false, autoplaySpotify := false }

/-- The `setState` reducer of `closeYoutube`. -/
def closeYoutube (s : PlayerState) : PlayerState :=
  { s with youtubeOpen := false, autoplayYoutube := false }

end Player

/-- One orchestrator operation, with the arguments its reducer consumes.
Operations that read `getPreferredProvider()` carry the value of that read
(`pref`); `shuffleQueue` carries the random comparator. -/
inductive Op where
  | play (canonicalTrackId : Option String) (provider : MusicProvider)
      (providerTrackId : Option String) (startSec : Option Int)
  | openPlayer (canonicalTrackId : Option String) (provider : MusicProvider)
      (providerTrackId : Option String) (autoplay : Option Bool) (startSec : Option Int)
  | switchProvider (provider : MusicProvider) (providerTrackId : Option String)
      (canonicalTrackId : Option String)
  | pause
  | stop
  | closeSpotify
  | closeYoutube
  | seekTo (sec : Int)
  | clearSeek
  | setCurrentSection (sectionId : Option String)
  | setIsPlaying (playing : Bool)
  | addToQueue (track : Track)
  | playFromQueue (pref : Option MusicProvider) (index : Nat)
  | removeFromQueue (index : Nat)
  | reorderQueue (newQueue : List Track)
  | clearQueue
  | shuffleQueue (cmp : Track → Track → Bool)
  | nextTrack (pref : Option MusicProvider)
  | previousTrack (pref : Option MusicProvider)

/-- Dispatch one operation to its reducer. -/
def step : Op → PlayerState → PlayerState
  | Op.play c p t sec => Player.play c p t sec
  | Op.openPlayer c p t a sec => Player.openPlayer c p t a sec
  | Op.switchProvider p t c => Player.switchProvider p t c
  | Op.pause => Player.pause
  | Op.stop => Player.stop
  | Op.closeSpotify => Player.closeSpotify
  | Op.closeYoutube => Player.closeYoutube
  | Op.seekTo sec => Player.seekTo sec
  | Op.clearSeek => Player.clearSeek
  | Op.setCurrentSection sec => Player.setCurrentSection sec
  | Op.setIsPlaying b => Player.setIsPlaying b
  | Op.addToQueue tr => Player.addToQueue tr
  | Op.playFromQueue pref i => Player.playFromQueue pref i
  | Op.removeFromQueue i => Player.removeFromQueue i
  | Op.reorderQueue q => Player.reorderQueue q
  | Op.clearQueue => Player.clearQueue
  | Op.shuffleQueue cmp => Player.shuffleQueue cmp
  | Op.nextTrack pref => Player.nextTrack pref
  | Op.previousTrack pref => Player.previousTrack pref

/-- Run a sequence of operations. -/
def run (ops : List Op) (s : PlayerState) : PlayerState :=
  ops.foldl (fun t op => step op t) s

/-- Whether an operation is `reorderQueue`. -/
def Op.isReorder : Op → Bool
  | Op.reorderQueue _ => true
  | _ => false

/-- The invariant-checking `useEffect` of `PlayerProvider`: `true` iff the
effect throws on the given state.  The second branch is the escape hatch
that tolerates a paused state. -/
def invariantEffectThrows (s : PlayerState) : Bool :=
  if s.spotifyOpen && s.youtubeOpen then true
  else if s.provider.isSome && !s.isPlaying && (s.spotifyOpen || s.youtubeOpen) then false
  else if decide (s.provider = some MusicProvider.spotify) && s.youtubeOpen then true
  else if decide (s.provider = some MusicProvider.youtube) && s.spotifyOpen then true
  else false

/-- The `ConnectedProviders` shape, reduced to the fields
`resolveDefaultProvider` reads (`connected?.spotify?.connected`, with
optional chaining collapsing missing records to `false`). -/
structure ConnectedProviders where
  spotifyConnected : Bool
  deriving DecidableEq, Repr

/-- `resolveDefaultProvider(connected)`; `pref` is the value read by
`getPreferredProvider()`. -/
def resolveDefaultProvider (pref : Option MusicProvider) (connected : ConnectedProviders) :
    MusicProvider :=
  match pref with
  | some MusicProvider.spotify =>
    if connected.spotifyConnected then MusicProvider.spotify
    else MusicProvider.youtube
  | some MusicProvider.youtube => MusicProvider.youtube
  | some MusicProvider.apple_music => MusicProvider.apple_music
  | some _ =>
    if connected.spotifyConnected then MusicProvider.spotify else MusicProvider.youtube
  | none =>
    if connected.spotifyConnected then MusicProvider.spotify else MusicProvider.youtube

/-! ### Adapter-call traces of `play` / `openPlayer` / `switchProvider`

`stopProvider` looks the previous provider's controls up in
`providerControlsRef` and calls `controls?.pause?.()` then
`controls?.teardown?.()`; it runs strictly before the `setState` that
activates the new provider.  `activeProviderRef` mirrors `state.provider`
(synced by a `useEffect` after each commit), so the previous provider seen
by these functions is the state's `provider` field.  A registered
`ProviderControls` record is summarised by whether its optional `teardown`
member is present (`pause` is a required member of the type). -/

/-- Registered `ProviderControls`, reduced to the presence of the optional
`teardown` member. -/
structure Ctrl where
  hasTeardown : Bool
  deriving DecidableEq, Repr

/-- One observable event of an orchestrator call, in program order:
adapter calls issued by `stopProvider`, then the `setState` commit that
marks the new provider active. -/
inductive CallEvent where
  | pauseCall (p : MusicProvider)
  | teardownCall (p : MusicProvider)
  | commitState
  deriving DecidableEq, Repr

/-- `stopProvider(provider)`: no-op on `null` or when no controls are
registered; otherwise `controls?.pause?.()` then `controls?.teardown?.()`. -/
def stopProviderCalls (ctrls : MusicProvider → Option Ctrl) :
    Option MusicProvider → List CallEvent
  | none => []
  | some p =>
    match ctrls p with
    | none => []
    | some c =>
      CallEvent.pauseCall p :: (if c.hasTeardown then [CallEvent.teardownCall p] else [])

/-- Event trace of `play(...)`: teardown of the previous provider (when one
is active and differs), then the activating `setState`. -/
def playCalls (ctrls : MusicProvider → Option Ctrl) (prevProvider : Option MusicProvider)
    (provider : MusicProvider) : List CallEvent :=
  (match prevProvider with
   | some q => if q ≠ provider then stopProviderCalls ctrls (some q) else []
   | none => []) ++ [CallEvent.commitState]

/-- Event trace of `openPlayer(payload)`; same guard and ordering as
`play`. -/
def openPlayerCalls (ctrls : MusicProvider → Option Ctrl) (prevProvider : Option MusicProvider)
    (provider : MusicProvider) : List CallEvent :=
  (match prevProvider with
   | some q => if q ≠ provider then stopProviderCalls ctrls (some q) else []
   | none => []) ++ [CallEvent.commitState]

/-- Event trace of `switchProvider(...)`; same guard and ordering as
`play`. -/
def switchProviderCalls (ctrls : MusicProvider → Option Ctrl) (prevProvider : Option MusicProvider)
    (provider : MusicProvider) : List CallEvent :=
  (match prevProvider with
   | some q => if q ≠ provider then stopProviderCalls ctrls (some q) else []
   | none => []) ++ [CallEvent.commitState]

/-! ### The YouTube adapter's pending-seek buffer

Shallow embedding of the `YouTubePlayer` adapter state
(`readyRef`, `pendingSeekRef`) and of the three code paths that touch it:
the registered `seekTo` control, the one-shot retry it schedules with
`setTimeout(..., 200)`, and `onPlayerReady`.  `engineSeeks` records, in
order, every `playerRef.current.seekTo(...)` call delivered to the native
engine; `timers` records scheduled retry payloads that have not fired yet.
Readiness (`readyRef.current && playerRef.current?.seekTo`) is collapsed to
the single `ready` flag, since `readyRef` is set only once a native player
exists. -/

structure YTState where
  ready : Bool
  pendingSeek : Option Int
  engineSeeks : List Int
  timers : List Int
  deriving DecidableEq, Repr

/-- Initial adapter state: not ready, empty buffer. -/
def ytInit : YTState :=
  { ready := false, pendingSeek := none, engineSeeks := [], timers := [] }

/-- `attemptSeek(sec)`: unconditionally stores `sec` in `pendingSeekRef`;
if ready, delivers the seek to the engine, clears the buffer and returns
`true`, otherwise returns `false`. -/
def attemptSeek (sec : Int) (st : YTState) : Bool × YTState :=
  let st1 := { st with pendingSeek := some sec }
  if st1.ready then
    (true, { st1 with pendingSeek := none, engineSeeks := st1.engineSeeks ++ [sec] })
  else (false, st1)

/-- External events driving the adapter: a `seekTo` command from the
orchestrator, a scheduled retry firing, and the engine's `onReady`. -/
inductive YTEvent where
  | seekCmd (sec : Int)
  | retryFire (sec : Int)
  | engineReady
  deriving DecidableEq, Repr

/-- One adapter step.
`seekCmd`: the registered `seekTo(seconds)` control — try the seek; on
failure store it in `pendingSeekRef` and schedule one retry.
`retryFire`: a scheduled `setTimeout` callback fires (it closed over its
own `seconds`); it simply re-runs `attemptSeek` and schedules nothing more.
`engineReady`: `onPlayerReady` sets the ready flag and replays the buffered
request, if any, via `attemptSeek`. -/
def ytStep (ev : YTEvent) (st : YTState) : YTState :=
  match ev with
  | YTEvent.seekCmd sec =>
    let r := attemptSeek sec st
    if r.1 then r.2
    else { r.2 with pendingSeek := some sec, timers := r.2.timers ++ [sec] }
  | YTEvent.retryFire sec =>
    if st.timers.contains sec then
      (attemptSeek sec { st with timers := st.timers.erase sec }).2
    else st
  | YTEvent.engineReady =>
    let st1 := { st with ready := true }
    match st1.pendingSeek with
    | some v => (attemptSeek v st1).2
    | none => st1

/-- Run a sequence of adapter events. -/
def ytRun (evs : List YTEvent) (st : YTState) : YTState :=
  evs.foldl (fun t ev => ytStep ev t) st

/-! ### Spec-side policy and concrete fixtures -/

/-- Stated policy of the spec for queue advancement (for comparison with
the code): prefer the stored preference when set and valid for the new
track, otherwise the streaming-audio engine when the user has an active
session with it, otherwise the video engine. -/
def specAdvanceProvider (pref : Option MusicProvider) (validForTrack : MusicProvider → Bool)
    (spotifySession : Bool) : MusicProvider :=
  match pref with
  | some p =>
    if validForTrack p then p
    else if spotifySession then MusicProvider.spotify else MusicProvider.youtube
  | none => if spotifySession then MusicProvider.spotify else MusicProvider.youtube

/-- Loose range invariant on the queue cursor: `queueIndex ∈ [-1, queue.length]`. -/
def queueIndexLoose (s : PlayerState) : Prop :=
  -1 ≤ s.queueIndex ∧ s.queueIndex ≤ (s.queue.length : Int)

/-- Strict range invariant of the spec: `queueIndex` is `-1` or in
`[0, queue.length)`. -/
def queueIndexStrict (s : PlayerState) : Prop :=
  s.queueIndex = -1 ∨ (0 ≤ s.queueIndex ∧ s.queueIndex < (s.queue.length : Int))

instance decQueueIndexStrict (s : PlayerState) : Decidable (queueIndexStrict s) := by
  unfold queueIndexStrict
  infer_instance

/-- Fixture track A (both provider ids present). -/
def trackA : Track :=
  { id := "A", spotify_id := some "sA", youtube_id := some "yA" }

/-- Fixture track B. -/
def trackB : Track :=
  { id := "B", spotify_id := some "sB", youtube_id := some "yB" }

/-- Fixture track C. -/
def trackC : Track :=
  { id := "C", spotify_id := some "sC", youtube_id := some "yC" }

/-- Fixture state: queue `[A, B]`, cursor on `A`. -/
def stAB : PlayerState :=
  { initialState with queue := [trackA, trackB], queueIndex := 0 }

/-- Fixture state: queue `[A, B, C]`, cursor on `C`. -/
def stABC : PlayerState :=
  { initialState with queue := [trackA, trackB, trackC], queueIndex := 2 }

/-- Fixture state: queue `[A]`, cursor unset, YouTube active and open. -/
def stYT : PlayerState :=
  { initialState with
    provider := some MusicProvider.youtube
    youtubeOpen := true
    isPlaying := true
    queue := [trackA]
    queueIndex := -1 }

/-- Fixture controls registry: only YouTube registered, with a `teardown`
member. -/
def ctrlsYT : MusicProvider → Option Ctrl :=
  fun r => if r = MusicProvider.youtube then some { hasTeardown := true } else none

/-! ## Helper lemmas -/

theorem insertCmp_length (cmp : Track → Track → Bool) (a : Track) (l : List Track) :
    (insertCmp cmp a l).length = l.length + 1 := by
  induction l with
  | nil => rfl
  | cons b t ih =>
    unfold insertCmp
    split
    · rfl
    · simpa using ih

theorem sortCmp_length (cmp : Track → Track → Bool) (l : List Track) :
    (sortCmp cmp l).length = l.length := by
  induction l with
  | nil => rfl
  | cons a t ih =>
    unfold sortCmp
    rw [insertCmp_length, ih]
    rfl

theorem insertCmp_perm (cmp : Track → Track → Bool) (a : Track) (l : List Track) :
    (insertCmp cmp a l).Perm (a :: l) := by
  induction l with
  | nil => exact List.Perm.refl _
  | cons b t ih =>
    unfold insertCmp
    split
    · exact List.Perm.refl _
    · exact ((ih.cons b).trans (List.Perm.swap a b t))

theorem sortCmp_perm (cmp : Track → Track → Bool) (l : List Track) :
    (sortCmp cmp l).Perm l := by
  induction l with
  | nil => exact List.Perm.refl _
  | cons a t ih => exact (insertCmp_perm cmp a (sortCmp cmp t)).trans (ih.cons a)

theorem listGetInt_bounds {l : List α} {i : Int} {a : α} (h : listGetInt l i = some a) :
    0 ≤ i ∧ i < (l.length : Int) := by
  unfold listGetInt at h
  split at h
  · exact absurd h (by simp)
  · rename_i hneg
    have h0 : 0 ≤ i := by omega
    have hlt : i.toNat < l.length := by
      by_contra hge
      rw [List.get?_eq_none.mpr (by omega)] at h
      exact absurd h (by simp)
    exact ⟨h0, by omega⟩

theorem listGetInt_isSome (l : List α) (i : Int) (h0 : 0 ≤ i) (h1 : i < (l.length : Int)) :
    ∃ a, listGetInt l i = some a := by
  unfold listGetInt
  rw [if_neg (by omega)]
  have hlt : i.toNat < l.length := by omega
  exact ⟨l.get ⟨i.toNat, hlt⟩, List.get?_eq_get hlt⟩

theorem eraseIdx_get?_of_le : ∀ (l : List α) (i j : Nat), i ≤ j →
    (l.eraseIdx i).get? j = l.get? (j + 1) := by
  intro l
  induction l with
  | nil => intro i j _; simp [List.eraseIdx]
  | cons a t ih =>
    intro i j hij
    cases i with
    | zero => simp [List.eraseIdx]
    | succ i' =>
      cases j with
      | zero => omega
      | succ j' =>
        simpa [List.eraseIdx] using ih i' j' (by omega)

theorem length_eraseIdx_ite : ∀ (l : List α) (i : Nat),
    (l.eraseIdx i).length = if i < l.length then l.length - 1 else l.length := by
  intro l
  induction l with
  | nil => intro i; simp [List.eraseIdx]
  | cons a t ih =>
    intro i
    cases i with
    | zero => simp [List.eraseIdx]
    | succ i' =>
      simp only [List.eraseIdx, List.length_cons, ih]
      by_cases h : i' < t.length
      · rw [if_pos h, if_pos (by omega)]
        omega
      · rw [if_neg h, if_neg (by omega)]

theorem eraseIdx_get?_of_gt : ∀ (l : List α) (i j : Nat), j < i →
    (l.eraseIdx i).get? j = l.get? j := by
  intro l
  induction l with
  | nil => intro i j _; simp [List.eraseIdx]
  | cons a t ih =>
    intro i j hij
    cases i with
    | zero => omega
    | succ i' =>
      cases j with
      | zero => simp [List.eraseIdx]
      | succ j' =>
        simpa [List.eraseIdx] using ih i' j' (by omega)

theorem mutex_step (op : Op) (s : PlayerState)
    (h : (s.spotifyOpen && s.youtubeOpen) = false) :
    ((step op s).spotifyOpen && (step op s).youtubeOpen) = false := by
  cases op with
  | play c p t sec =>
    by_cases hp : p = MusicProvider.spotify <;> simp [step, Player.play, hp]
  | openPlayer c p t a sec =>
    by_cases hp : p = MusicProvider.spotify <;> simp [step, Player.openPlayer, hp]
  | switchProvider p t c =>
    by_cases hp : p = MusicProvider.spotify <;> simp [step, Player.switchProvider, hp]
  | pause => simpa [step, Player.pause] using h
  | stop => simp [step, Player.stop]
  | closeSpotify => simp [step, Player.closeSpotify]
  | closeYoutube => simp [step, Player.closeYoutube]
  | seekTo sec => simpa [step, Player.seekTo] using h
  | clearSeek => simpa [step, Player.clearSeek] using h
  | setCurrentSection sec => simpa [step, Player.setCurrentSection] using h
  | setIsPlaying b => simpa [step, Player.setIsPlaying] using h
  | addToQueue tr => simpa [step, Player.addToQueue] using h
  | playFromQueue pref i =>
    simp only [step, Player.playFromQueue]
    cases hq : s.queue.get? i with
    | none => simpa [hq] using h
    | some tr =>
      rcases pref with _ | p
      · simp [hq]
      · cases p <;> simp [hq]
  | removeFromQueue i => simpa [step, Player.removeFromQueue] using h
  | reorderQueue q => simpa [step, Player.reorderQueue] using h
  | clearQueue => simpa [step, Player.clearQueue] using h
  | shuffleQueue cmp => simpa [step, Player.shuffleQueue] using h
  | nextTrack pref =>
    simp only [step, Player.nextTrack]
    split
    · exact h
    · split <;> simpa using h
  | previousTrack pref =>
    simp only [step, Player.previousTrack]
    split
    · exact h
    · split <;> simpa using h

theorem run_mutex (l : List Op) (s : PlayerState)
    (h : (s.spotifyOpen && s.youtubeOpen) = false) :
    ((run l s).spotifyOpen && (run l s).youtubeOpen) = false := by
  induction l generalizing s with
  | nil => exact h
  | cons op l ih => exact ih (step op s) (mutex_step op s h)

/-! ## C1 -/

/-- C1: for every sequence of orchestrator operations starting from the
initial `PlayerState`, the flags `spotifyOpen` and `youtubeOpen` are never
both true at the same time. -/
theorem C1_mutual_exclusivity (ops : List Op) :
    ((run ops initialState).spotifyOpen && (run ops initialState).youtubeOpen) = false :=
  run_mutex ops initialState rfl

/-! ## C2 -/

/-- C2 counterexample: issue `seekTo(42)` then `seekTo(77)` before ready,
let the engine become ready, then let the retry that `seekTo(42)` scheduled
fire.  The engine receives the seeks `[77, 42]`: the superseded request 42
is delivered after all, so it is not the case that exactly one seek (77)
reaches the engine. -/
theorem C2_counterexample :
    (ytRun [YTEvent.seekCmd 42, YTEvent.seekCmd 77, YTEvent.engineReady,
        YTEvent.retryFire 42] ytInit).engineSeeks = [77, 42] ∧
    ((ytRun [YTEvent.seekCmd 42, YTEvent.seekCmd 77, YTEvent.engineReady,
        YTEvent.retryFire 42] ytInit).engineSeeks.contains 42) = true := by
  constructor <;> rfl

/-- C2 amended: the single-slot buffer is latest-wins — when the engine
becomes ready before any scheduled retry fires, the `onReady` replay applies
exactly one seek to the engine, with the latest value; the buffer is then
clear.  (The earlier request is superseded in the buffer, but the fixed-delay
retry scheduled by each pre-ready `seekTo` call can still deliver it after
readiness, as the counterexample shows.) -/
theorem C2_latest_wins_at_ready (a b : Int) :
    (ytRun [YTEvent.seekCmd a, YTEvent.seekCmd b, YTEvent.engineReady] ytInit).engineSeeks
        = [b] ∧
    (ytRun [YTEvent.seekCmd a, YTEvent.seekCmd b, YTEvent.engineReady] ytInit).pendingSeek
        = none := by
  constructor <;> rfl

/-! ## C3 -/

/-- C3: whenever `play`, `openPlayer` or `switchProvider` is invoked while a
different provider `q` is active (and `q`'s adapter has registered controls
with a `teardown` member), the emitted event trace is exactly pause on `q`,
teardown on `q`, then the state commit — pause and teardown are issued
before the `setState` that marks the new provider `p` active and open. -/
theorem C3_teardown_before_activate
    (ctrls : MusicProvider → Option Ctrl) (s : PlayerState) (q p : MusicProvider)
    (c t : Option String) (a : Option Bool) (sec : Option Int)
    (hq : s.provider = some q) (hne : q ≠ p) (hc : ctrls q = some { hasTeardown := true }) :
    playCalls ctrls s.provider p =
        [CallEvent.pauseCall q, CallEvent.teardownCall q, CallEvent.commitState] ∧
    openPlayerCalls ctrls s.provider p =
        [CallEvent.pauseCall q, CallEvent.teardownCall q, CallEvent.commitState] ∧
    switchProviderCalls ctrls s.provider p =
        [CallEvent.pauseCall q, CallEvent.teardownCall q, CallEvent.commitState] ∧
    (Player.play c p t sec s).provider = some p ∧
    (Player.openPlayer c p t a sec s).provider = some p ∧
    (Player.switchProvider p t c s).provider = some p ∧
    (if p = MusicProvider.spotify then (Player.play c p t sec s).spotifyOpen
      else (Player.play c p t sec s).youtubeOpen) = true ∧
    (if p = MusicProvider.spotify then (Player.openPlayer c p t a sec s).spotifyOpen
      else (Player.openPlayer c p t a sec s).youtubeOpen) = true ∧
    (if p = MusicProvider.spotify then (Player.switchProvider p t c s).spotifyOpen
      else (Player.switchProvider p t c s).youtubeOpen) = true := by
  rw [hq]
  refine ⟨?_, ?_, ?_, ?_, ?_, ?_, ?_, ?_, ?_⟩
  · simp [playCalls, stopProviderCalls, hne, hc]
  · simp [openPlayerCalls, stopProviderCalls, hne, hc]
  · simp [switchProviderCalls, stopProviderCalls, hne, hc]
  · by_cases hp : p = MusicProvider.spotify <;> simp [Player.play, hp]
  · by_cases hp : p = MusicProvider.spotify <;> simp [Player.openPlayer, hp]
  · by_cases hp : p = MusicProvider.spotify <;> simp [Player.switchProvider, hp]
  · by_cases hp : p = MusicProvider.spotify <;> simp [Player.play, hp]
  · by_cases hp : p = MusicProvider.spotify <;> simp [Player.openPlayer, hp]
  · by_cases hp : p = MusicProvider.spotify <;> simp [Player.switchProvider, hp]

/-- Concrete instantiation of `C3_teardown_before_activate`: YouTube active
with registered controls, switching to Spotify. -/
theorem C3_witness :
    playCalls ctrlsYT (some MusicProvider.youtube) MusicProvider.spotify =
      [CallEvent.pauseCall MusicProvider.youtube, CallEvent.teardownCall MusicProvider.youtube,
        CallEvent.commitState] :=
  (C3_teardown_before_activate ctrlsYT stYT MusicProvider.youtube MusicProvider.spotify
    none none none none rfl (by decide) rfl).1

/-! ## C4 -/

/-- C4 fails on the code: after `play` on YouTube, `addToQueue`, and
`nextTrack` with stored preference Spotify, the reachable state has
`provider = spotify` while `youtubeOpen` is still true — `nextTrack` updates
`provider` but never touches the open flags — and the orchestrator's own
invariant-checking effect throws on exactly this state ("YouTube open while
Spotify is active"), so the code contradicts its own runtime assertion. -/
theorem C4_code_bug_open_flag_incoherence :
    (run [Op.play (some "c") MusicProvider.youtube (some "yA") none,
        Op.addToQueue trackA, Op.nextTrack (some MusicProvider.spotify)]
        initialState).provider = some MusicProvider.spotify ∧
    (run [Op.play (some "c") MusicProvider.youtube (some "yA") none,
        Op.addToQueue trackA, Op.nextTrack (some MusicProvider.spotify)]
        initialState).youtubeOpen = true ∧
    invariantEffectThrows
      (run [Op.play (some "c") MusicProvider.youtube (some "yA") none,
        Op.addToQueue trackA, Op.nextTrack (some MusicProvider.spotify)]
        initialState) = true := by
  refine ⟨rfl, rfl, rfl⟩

/-! ## C5 -/

/-- C5 counterexample: advancing the queue (state `stYT`, queue `[A]`) with
no stored preference sets `provider` to `null`.  The claimed policy never
yields `null` — with an active Spotify session (and `A` valid on any
provider) it requires Spotify — so the code disagrees with the claim at this
input. -/
theorem C5_counterexample :
    (Player.nextTrack none stYT).provider = none ∧
    decide ((Player.nextTrack none stYT).provider
        = some (specAdvanceProvider none (fun _ => true) true)) = false := by
  refine ⟨rfl, rfl⟩

/-- C5 amended: queue advancement (`playFromQueue`, `nextTrack`,
`previousTrack`) sets `provider` to exactly the stored preference value read
by `getPreferredProvider()` — `null` when no preference is stored — with no
validity check against the track and no fallback to a connected Spotify
session or to YouTube.  (The claimed fallback policy exists only in
`resolveDefaultProvider`, which the queue-advancement reducers do not
call.) -/
theorem C5_advancement_uses_raw_preference (pref : Option MusicProvider) (s : PlayerState)
    (i : Nat) (tr : Track) (hi : s.queue.get? i = some tr)
    (hne : s.queue ≠ []) (h1 : -1 ≤ s.queueIndex) (h2 : s.queueIndex ≤ (s.queue.length : Int)) :
    (Player.playFromQueue pref i s).provider = pref ∧
    (Player.nextTrack pref s).provider = pref ∧
    (Player.previousTrack pref s).provider = pref := by
  have hlen : s.queue.length ≠ 0 := by
    intro h0
    exact hne (List.length_eq_zero.mp h0)
  refine ⟨?_, ?_, ?_⟩
  · unfold Player.playFromQueue
    rw [hi]
  · unfold Player.nextTrack
    rw [if_neg hlen]
    by_cases hge : s.queueIndex ≥ (s.queue.length : Int) - 1
    · rw [if_pos hge]
      obtain ⟨a, ha⟩ := listGetInt_isSome s.queue 0 (by omega) (by omega)
      dsimp only
      rw [ha]
    · rw [if_neg hge]
      obtain ⟨a, ha⟩ := listGetInt_isSome s.queue (s.queueIndex + 1) (by omega) (by omega)
      dsimp only
      rw [ha]
  · unfold Player.previousTrack
    rw [if_neg hlen]
    by_cases hle : s.queueIndex ≤ 0
    · rw [if_pos hle]
      obtain ⟨a, ha⟩ := listGetInt_isSome s.queue ((s.queue.length : Int) - 1)
        (by omega) (by omega)
      dsimp only
      rw [ha]
    · rw [if_neg hle]
      obtain ⟨a, ha⟩ := listGetInt_isSome s.queue (s.queueIndex - 1) (by omega) (by omega)
      dsimp only
      rw [ha]

/-- Concrete instantiation of `C5_advancement_uses_raw_preference`: with a
stored Deezer preference, `nextTrack` on `[A, B]` uses Deezer verbatim. -/
theorem C5_witness :
    (Player.nextTrack (some MusicProvider.deezer) stAB).provider
      = some MusicProvider.deezer :=
  (C5_advancement_uses_raw_preference (some MusicProvider.deezer) stAB 0 trackA rfl
    (by decide) (by decide) (by decide)).2.1

/-! ## C6 -/

theorem loose_step (op : Op) (s : PlayerState) (hop : op.isReorder = false)
    (h : queueIndexLoose s) : queueIndexLoose (step op s) := by
  obtain ⟨h1, h2⟩ := h
  cases op with
  | play c p t sec =>
    unfold queueIndexLoose
    by_cases hp : p = MusicProvider.spotify <;> simp [step, Player.play, hp] <;> omega
  | openPlayer c p t a sec =>
    unfold queueIndexLoose
    by_cases hp : p = MusicProvider.spotify <;> simp [step, Player.openPlayer, hp] <;> omega
  | switchProvider p t c =>
    unfold queueIndexLoose
    by_cases hp : p = MusicProvider.spotify <;> simp [step, Player.switchProvider, hp] <;> omega
  | pause => exact ⟨h1, h2⟩
  | stop => exact ⟨h1, h2⟩
  | closeSpotify => exact ⟨h1, h2⟩
  | closeYoutube => exact ⟨h1, h2⟩
  | seekTo sec => exact ⟨h1, h2⟩
  | clearSeek => exact ⟨h1, h2⟩
  | setCurrentSection sec => exact ⟨h1, h2⟩
  | setIsPlaying b => exact ⟨h1, h2⟩
  | addToQueue tr =>
    unfold queueIndexLoose
    simp only [step, Player.addToQueue, List.length_append, List.length_cons,
      List.length_nil]
    constructor <;> [exact h1; omega]
  | playFromQueue pref i =>
    simp only [step, Player.playFromQueue]
    cases hq : s.queue.get? i with
    | none => exact ⟨h1, h2⟩
    | some tr =>
      have hlt : i < s.queue.length := by
        by_contra hge
        rw [List.get?_eq_none.mpr (by omega)] at hq
        exact absurd hq (by simp)
      unfold queueIndexLoose
      dsimp only
      exact ⟨by omega, by omega⟩
  | removeFromQueue i =>
    unfold queueIndexLoose
    simp only [step, Player.removeFromQueue]
    have hlen := length_eraseIdx_ite s.queue i
    by_cases hlt : i < s.queue.length
    · rw [if_pos hlt] at hlen
      by_cases hqi : (i : Int) < s.queueIndex
      · rw [if_pos hqi]
        constructor <;> [omega; (rw [hlen]; omega)]
      · rw [if_neg hqi]
        constructor <;> [omega; (rw [hlen]; omega)]
    · rw [if_neg hlt] at hlen
      by_cases hqi : (i : Int) < s.queueIndex
      · rw [if_pos hqi]
        constructor <;> [omega; (rw [hlen]; omega)]
      · rw [if_neg hqi]
        constructor <;> [omega; (rw [hlen]; omega)]
  | reorderQueue q => exact absurd hop (by simp [Op.isReorder])
  | clearQueue =>
    unfold queueIndexLoose
    simp [step, Player.clearQueue]
  | shuffleQueue cmp =>
    unfold queueIndexLoose
    simp only [step, Player.shuffleQueue, jsSliceUpTo, jsSliceFrom, List.length_append,
      List.length_take, List.length_drop, sortCmp_length]
    constructor <;> omega
  | nextTrack pref =>
    simp only [step, Player.nextTrack]
    split
    · exact ⟨h1, h2⟩
    · by_cases hge : s.queueIndex ≥ (s.queue.length : Int) - 1
      · simp only [if_pos hge]
        cases hq : listGetInt s.queue 0 with
        | none => exact ⟨h1, h2⟩
        | some tr =>
          obtain ⟨hb1, hb2⟩ := listGetInt_bounds hq
          unfold queueIndexLoose
          dsimp only
          exact ⟨by omega, by omega⟩
      · simp only [if_neg hge]
        cases hq : listGetInt s.queue (s.queueIndex + 1) with
        | none => exact ⟨h1, h2⟩
        | some tr =>
          obtain ⟨hb1, hb2⟩ := listGetInt_bounds hq
          unfold queueIndexLoose
          dsimp only
          exact ⟨by omega, by omega⟩
  | previousTrack pref =>
    simp only [step, Player.previousTrack]
    split
    · exact ⟨h1, h2⟩
    · by_cases hle : s.queueIndex ≤ 0
      · simp only [if_pos hle]
        cases hq : listGetInt s.queue ((s.queue.length : Int) - 1) with
        | none => exact ⟨h1, h2⟩
        | some tr =>
          obtain ⟨hb1, hb2⟩ := listGetInt_bounds hq
          unfold queueIndexLoose
          dsimp only
          exact ⟨by omega, by omega⟩
      · simp only [if_neg hle]
        cases hq : listGetInt s.queue (s.queueIndex - 1) with
        | none => exact ⟨h1, h2⟩
        | some tr =>
          obtain ⟨hb1, hb2⟩ := listGetInt_bounds hq
          unfold queueIndexLoose
          dsimp only
          exact ⟨by omega, by omega⟩

theorem run_loose (l : List Op) (s : PlayerState) (hl : ∀ op ∈ l, op.isReorder = false)
    (h : queueIndexLoose s) : queueIndexLoose (run l s) := by
  induction l generalizing s with
  | nil => exact h
  | cons op t ih =>
    exact ih (step op s) (fun o ho => hl o (List.mem_cons_of_mem op ho))
      (loose_step op s (hl op (List.mem_cons_self op t)) h)

/-- C6 counterexample: the state reached by `addToQueue(A)`,
`playFromQueue(0)`, `removeFromQueue(0)` — removal of the entry the cursor
points at, at the end of the queue — has an empty queue but
`queueIndex = 0`, violating the claimed strict range. -/
theorem C6_counterexample :
    (run [Op.addToQueue trackA, Op.playFromQueue none 0, Op.removeFromQueue 0]
        initialState).queue = [] ∧
    (run [Op.addToQueue trackA, Op.playFromQueue none 0, Op.removeFromQueue 0]
        initialState).queueIndex = 0 ∧
    decide (queueIndexStrict
      (run [Op.addToQueue trackA, Op.playFromQueue none 0, Op.removeFromQueue 0]
        initialState)) = false := by
  refine ⟨rfl, rfl, rfl⟩

/-- C6 amended: in every state reachable by queue operations other than
`reorderQueue`, `queueIndex` lies in `[-1, queue.length]`.  The strict bound
`-1` or `[0, queue.length)` fails: `removeFromQueue` of the entry the cursor
points at, when it is the last entry, leaves `queueIndex = queue.length`
(see the counterexample), and `reorderQueue` leaves `queueIndex` completely
unadjusted, so a shorter reorder can push it arbitrarily out of range. -/
theorem C6_queue_index_loose_range (ops : List Op)
    (h : ∀ op ∈ ops, op.isReorder = false) :
    queueIndexLoose (run ops initialState) :=
  run_loose ops initialState h ⟨by decide, by decide⟩

/-- Concrete instantiation of `C6_queue_index_loose_range` on the
counterexample trace itself. -/
theorem C6_witness :
    queueIndexLoose (run [Op.addToQueue trackA, Op.playFromQueue none 0,
      Op.removeFromQueue 0] initialState) :=
  C6_queue_index_loose_range
    [Op.addToQueue trackA, Op.playFromQueue none 0, Op.removeFromQueue 0]
    (by
      intro op hop
      simp only [List.mem_cons, List.not_mem_nil, or_false] at hop
      rcases hop with rfl | rfl | rfl <;> rfl)

/-! ## C7 -/

/-- C7: removing a queue entry at an index strictly below `queueIndex`
decrements `queueIndex` by exactly one, and the decremented cursor still
reads the same logical track; removing the entry at `queueIndex` leaves
`queueIndex` at the same physical position, which (when a later entry
exists) now holds the entry that followed the removed one. -/
theorem C7_removal_index_correction :
    (∀ (s : PlayerState) (i : Nat), (i : Int) < s.queueIndex →
      s.queueIndex < (s.queue.length : Int) →
      (Player.removeFromQueue i s).queueIndex = s.queueIndex - 1 ∧
      listGetInt (Player.removeFromQueue i s).queue (s.queueIndex - 1) =
        listGetInt s.queue s.queueIndex) ∧
    (∀ (s : PlayerState) (i : Nat), (i : Int) = s.queueIndex →
      (Player.removeFromQueue i s).queueIndex = s.queueIndex ∧
      (s.queueIndex + 1 < (s.queue.length : Int) →
        listGetInt (Player.removeFromQueue i s).queue s.queueIndex =
          listGetInt s.queue (s.queueIndex + 1))) := by
  constructor
  · intro s i hlt hub
    unfold Player.removeFromQueue
    dsimp only
    rw [if_pos hlt]
    refine ⟨rfl, ?_⟩
    unfold listGetInt
    rw [if_neg (by omega), if_neg (by omega)]
    have h1 : i ≤ (s.queueIndex - 1).toNat := by omega
    have h2 : (s.queueIndex - 1).toNat + 1 = s.queueIndex.toNat := by omega
    rw [eraseIdx_get?_of_le s.queue i ((s.queueIndex - 1).toNat) h1, h2]
  · intro s i heq
    unfold Player.removeFromQueue
    dsimp only
    rw [if_neg (by omega)]
    refine ⟨rfl, ?_⟩
    intro hub
    unfold listGetInt
    rw [if_neg (by omega), if_neg (by omega)]
    have h1 : i ≤ s.queueIndex.toNat := by omega
    have h2 : s.queueIndex.toNat + 1 = (s.queueIndex + 1).toNat := by omega
    rw [eraseIdx_get?_of_le s.queue i (s.queueIndex.toNat) h1, h2]

/-- Concrete instantiation of `C7_removal_index_correction`: queue
`[A, B, C]` with cursor on `C` (index 2); removing index 0 yields cursor 1,
still reading `C`. -/
theorem C7_witness :
    (Player.removeFromQueue 0 stABC).queueIndex = stABC.queueIndex - 1 ∧
    listGetInt (Player.removeFromQueue 0 stABC).queue (stABC.queueIndex - 1) =
      listGetInt stABC.queue stABC.queueIndex :=
  C7_removal_index_correction.1 stABC 0 (by decide) (by decide)

/-! ## C8 -/

/-- C8: on a non-empty queue `nextTrack` at the last index wraps the cursor
to 0 and `previousTrack` at index 0 wraps it to the last index; on an empty
queue both operations return the state unchanged (the model is a total
function, so no exception is possible). -/
theorem C8_queue_wraparound :
    (∀ (pref : Option MusicProvider) (s : PlayerState), s.queue ≠ [] →
      s.queueIndex = (s.queue.length : Int) - 1 →
      (Player.nextTrack pref s).queueIndex = 0) ∧
    (∀ (pref : Option MusicProvider) (s : PlayerState), s.queue ≠ [] →
      s.queueIndex = 0 →
      (Player.previousTrack pref s).queueIndex = (s.queue.length : Int) - 1) ∧
    (∀ (pref : Option MusicProvider) (s : PlayerState), s.queue = [] →
      Player.nextTrack pref s = s ∧ Player.previousTrack pref s = s) := by
  refine ⟨?_, ?_, ?_⟩
  · intro pref s hne hidx
    have hlen : s.queue.length ≠ 0 := fun h0 => hne (List.length_eq_zero.mp h0)
    unfold Player.nextTrack
    rw [if_neg hlen, if_pos (show s.queueIndex ≥ (s.queue.length : Int) - 1 by omega)]
    obtain ⟨a, ha⟩ := listGetInt_isSome s.queue 0 (by omega) (by omega)
    dsimp only
    rw [ha]
  · intro pref s hne hidx
    have hlen : s.queue.length ≠ 0 := fun h0 => hne (List.length_eq_zero.mp h0)
    unfold Player.previousTrack
    rw [if_neg hlen, if_pos (show s.queueIndex ≤ 0 by omega)]
    obtain ⟨a, ha⟩ := listGetInt_isSome s.queue ((s.queue.length : Int) - 1)
      (by omega) (by omega)
    dsimp only
    rw [ha]
  · intro pref s hq
    refine ⟨?_, ?_⟩ <;> simp [Player.nextTrack, Player.previousTrack, hq]

/-- Concrete instantiation of `C8_queue_wraparound`: wrap forward from the
last index of `[A, B, C]` and backward from index 0 of `[A, B]`. -/
theorem C8_witness :
    (Player.nextTrack none stABC).queueIndex = 0 ∧
    (Player.previousTrack none stAB).queueIndex = (stAB.queue.length : Int) - 1 ∧
    (Player.nextTrack none initialState = initialState ∧
      Player.previousTrack none initialState = initialState) :=
  ⟨C8_queue_wraparound.1 none stABC (by decide) (by decide),
   C8_queue_wraparound.2.1 none stAB (by decide) (by decide),
   C8_queue_wraparound.2.2 none initialState rfl⟩

/-! ## C9 -/

/-- C9: `shuffleQueue` leaves `queueIndex` unchanged, leaves every entry at
an index `≤ queueIndex` unchanged, and replaces the entries after
`queueIndex` with a permutation of exactly those entries — for any value of
the random comparator. -/
theorem C9_shuffle_stability (cmp : Track → Track → Bool) (s : PlayerState) :
    (Player.shuffleQueue cmp s).queueIndex = s.queueIndex ∧
    (∀ j : Nat, (j : Int) ≤ s.queueIndex →
      (Player.shuffleQueue cmp s).queue.get? j = s.queue.get? j) ∧
    ((Player.shuffleQueue cmp s).queue.drop (s.queueIndex + 1).toNat).Perm
      (s.queue.drop (s.queueIndex + 1).toNat) := by
  have hqueue : (Player.shuffleQueue cmp s).queue =
      s.queue.take (jsIdx s.queue.length (s.queueIndex + 1)) ++
        sortCmp cmp (s.queue.drop (jsIdx s.queue.length (s.queueIndex + 1))) := rfl
  refine ⟨rfl, ?_, ?_⟩
  · intro j hj
    have hcj : j < jsIdx s.queue.length (s.queueIndex + 1) := by
      unfold jsIdx
      rw [if_neg (by omega)]
      omega
    rw [hqueue]
    by_cases hcl : jsIdx s.queue.length (s.queueIndex + 1) ≤ s.queue.length
    · rw [List.get?_append (by rw [List.length_take]; omega), List.get?_take hcj]
    · rw [List.take_of_length_le (by omega), List.drop_eq_nil_of_le (by omega)]
      simp [sortCmp]
  · have hperm : (s.queue.take (jsIdx s.queue.length (s.queueIndex + 1)) ++
        sortCmp cmp (s.queue.drop (jsIdx s.queue.length (s.queueIndex + 1)))).Perm s.queue := by
      have h1 := List.Perm.append_left (s.queue.take (jsIdx s.queue.length (s.queueIndex + 1)))
        (sortCmp_perm cmp (s.queue.drop (jsIdx s.queue.length (s.queueIndex + 1))))
      rwa [List.take_append_drop] at h1
    rw [hqueue]
    by_cases hqi : 0 ≤ s.queueIndex
    · have hdc : (s.queueIndex + 1).toNat = jsIdx s.queue.length (s.queueIndex + 1) := by
        unfold jsIdx
        rw [if_neg (by omega)]
      by_cases hcl : jsIdx s.queue.length (s.queueIndex + 1) ≤ s.queue.length
      · rw [hdc, List.drop_append_of_le_length (by rw [List.length_take]; omega),
          List.drop_eq_nil_of_le (by rw [List.length_take]; omega), List.nil_append]
        exact sortCmp_perm cmp _
      · have htake : s.queue.take (jsIdx s.queue.length (s.queueIndex + 1)) = s.queue :=
          List.take_of_length_le (by omega)
        have hnil : s.queue.drop (jsIdx s.queue.length (s.queueIndex + 1)) = [] :=
          List.drop_eq_nil_of_le (by omega)
        rw [htake, hnil]
        simp only [sortCmp, List.append_nil]
        exact List.Perm.refl _
    · have hd0 : (s.queueIndex + 1).toNat = 0 := by omega
      rw [hd0]
      simpa using hperm

/-- Concrete instantiation of `C9_shuffle_stability`: the entry at the
cursor (index 0 of `[A, B]`) is untouched by a shuffle. -/
theorem C9_witness :
    (Player.shuffleQueue (fun _ _ => true) stAB).queue.get? 0 = stAB.queue.get? 0 :=
  (C9_shuffle_stability (fun _ _ => true) stAB).2.1 0 (by decide)

/-! ## C10 -/

/-- C10: `reorderQueue(newQueue)` writes exactly the given sequence into
`queue` and leaves every other `PlayerState` field unchanged; in particular
`queueIndex` is not adjusted, so (concrete second part) reordering `[A, B]`
with cursor on `A` into `[B, A]` leaves the cursor reading `B` — a
different logical track than before the call. -/
theorem C10_reorder_frame :
    (∀ (s : PlayerState) (nq : List Track),
      (Player.reorderQueue nq s).queue = nq ∧
      (Player.reorderQueue nq s).provider = s.provider ∧
      (Player.reorderQueue nq s).trackId = s.trackId ∧
      (Player.reorderQueue nq s).spotifyOpen = s.spotifyOpen ∧
      (Player.reorderQueue nq s).youtubeOpen = s.youtubeOpen ∧
      (Player.reorderQueue nq s).canonicalTrackId = s.canonicalTrackId ∧
      (Player.reorderQueue nq s).spotifyTrackId = s.spotifyTrackId ∧
      (Player.reorderQueue nq s).youtubeTrackId = s.youtubeTrackId ∧
      (Player.reorderQueue nq s).autoplaySpotify = s.autoplaySpotify ∧
      (Player.reorderQueue nq s).autoplayYoutube = s.autoplayYoutube ∧
      (Player.reorderQueue nq s).seekToSec = s.seekToSec ∧
      (Player.reorderQueue nq s).currentSectionId = s.currentSectionId ∧
      (Player.reorderQueue nq s).isPlaying = s.isPlaying ∧
      (Player.reorderQueue nq s).queueIndex = s.queueIndex) ∧
    ((Player.reorderQueue [trackB, trackA] stAB).queueIndex = stAB.queueIndex ∧
      decide (listGetInt (Player.reorderQueue [trackB, trackA] stAB).queue
          (Player.reorderQueue [trackB, trackA] stAB).queueIndex =
        listGetInt stAB.queue stAB.queueIndex) = false) := by
  refine ⟨fun s nq =>
    ⟨rfl, rfl, rfl, rfl, rfl, rfl, rfl, rfl, rfl, rfl, rfl, rfl, rfl, rfl⟩, rfl, ?_⟩
  decide

end Clade
